import Mathlib

/-!
Verification development for the OMR scanner core
(`backend/app/core/{template_parser,bubble_detector,image_processing,evaluator,omr_engine}.py`).

The Python source is shallowly embedded: machine floats are idealised as exact
rationals (`ℚ`); Python `dict`s become insertion-ordered association lists;
code that can raise (`IndexError` from `order[1]`, `ValueError` from
`np.max([])`, `KeyError` from missing config keys) is embedded in
`Option`/`Except`.  Native OpenCV kernels that have no closed-form
description (Gaussian blur + Otsu used for each bubble's fill ratio) are
threaded through as an explicit function parameter `fill_of`; everything the
repository itself computes is embedded definitionally.
-/

namespace OmrScanner

/-- Python `round` on a float (round half to even), on exact rationals. -/
def py_round (q : ℚ) : ℤ :=
  let fl := ⌊q⌋
  let frac := q - (fl : ℚ)
  if frac < 1/2 then fl
  else if 1/2 < frac then fl + 1
  else if 2 ∣ fl then fl else fl + 1

/-- Python `int()` on a float: truncation toward zero. -/
def py_int (q : ℚ) : ℤ :=
  if 0 ≤ q then ⌊q⌋ else -⌊-q⌋

/-- Python `round(x, 2)` (two decimal places, half to even). -/
def py_round2 (q : ℚ) : ℚ :=
  (py_round (q * 100) : ℚ) / 100

/-- CPython slice-index normalisation for a step-1 slice over a list of
length `n`: negative indices count from the end, then clamp to `[0, n]`. -/
def py_slice_index (n : ℕ) (i : ℤ) : ℕ :=
  if i < 0 then (max 0 ((n : ℤ) + i)).toNat else min n i.toNat

/-- Python / numpy `l[start:stop]` (step 1). -/
def py_slice (start stop : ℤ) (l : List α) : List α :=
  (l.take (py_slice_index l.length stop)).drop (py_slice_index l.length start)

/-- Stable insertion used by `py_sorted`: `x` goes after every element `e`
already present with `le e x` (ties keep original order, as CPython's
stable sort does). -/
def insert_stable (le : α → α → Bool) (x : α) : List α → List α
  | [] => [x]
  | y :: ys => if le y x then y :: insert_stable le x ys else x :: y :: ys

/-- Model of Python `sorted` with a boolean total preorder `le`
(for `sorted(l, key=k)` use `le a b := k a ≤ k b`; for `reverse=True`
use `le a b := k b ≤ k a`): a stable ascending sort. -/
def py_sorted (le : α → α → Bool) (l : List α) : List α :=
  l.foldl (fun acc x => insert_stable le x acc) []

/-- `py_range a` applied to a count `n`: the `n` consecutive integers
starting at `a`. -/
def py_range_from (a : ℤ) : ℕ → List ℤ
  | 0 => []
  | n + 1 => a :: py_range_from (a + 1) n

/-- Python `range(a, b)` over integers. -/
def py_range (a b : ℤ) : List ℤ :=
  py_range_from a (b - a).toNat

/-- Python `str.upper()` (ASCII uppercasing, which is all the evaluator
compares). -/
def py_upper (s : String) : String := s.map Char.toUpper

-- ═══════════════ template_parser.py ═══════════════

/-- `template_parser.Bubble`: a single bubble on the OMR sheet. -/
structure Bubble where
  x : ℤ
  y : ℤ
  field_label : String
  field_value : String
deriving DecidableEq, Inhabited

/-- Advance a point along the `_h` axis (the axis on which successive
choices of one question advance): index 1 (the y coordinate) for
`direction == "vertical"`, index 0 otherwise. -/
def adv_h (vertical : Bool) (p : ℚ × ℚ) (g : ℚ) : ℚ × ℚ :=
  if vertical then (p.1, p.2 + g) else (p.1 + g, p.2)

/-- Advance a point along the `_v` axis (the axis on which successive
questions advance): index 0 for `direction == "vertical"`, index 1
otherwise. -/
def adv_v (vertical : Bool) (p : ℚ × ℚ) (g : ℚ) : ℚ × ℚ :=
  if vertical then (p.1 + g, p.2) else (p.1, p.2 + g)

/-- Inner loop of `FieldBlock._generate_bubble_grid`: one bubble per
`bubble_value`, advancing the bubble point by `bubbles_gap` along `_h`
after each. -/
def gen_field_bubbles (vertical : Bool) (field_label : String) (bubbles_gap : ℚ) :
    ℚ × ℚ → List String → List Bubble
  | _, [] => []
  | bp, v :: vs =>
    { x := py_round bp.1, y := py_round bp.2
      , field_label := field_label, field_value := v } ::
      gen_field_bubbles vertical field_label bubbles_gap (adv_h vertical bp bubbles_gap) vs

/-- Outer loop of `FieldBlock._generate_bubble_grid`: one strip per
`field_label`, advancing the lead point by `labels_gap` along `_v` after
each question. -/
def gen_grid (vertical : Bool) (bubble_values : List String) (bubbles_gap labels_gap : ℚ) :
    ℚ × ℚ → List String → List (List Bubble)
  | _, [] => []
  | lead, lab :: labs =>
    gen_field_bubbles vertical lab bubbles_gap lead bubble_values ::
      gen_grid vertical bubble_values bubbles_gap labels_gap (adv_v vertical lead labels_gap) labs

/-- `FieldBlock._generate_bubble_grid`. -/
def generate_bubble_grid (origin : ℤ × ℤ) (bubble_values : List String)
    (bubbles_gap : ℚ) (direction : String) (labels_gap : ℚ)
    (field_labels : List String) : List (List Bubble) :=
  gen_grid (direction == "vertical") bubble_values bubbles_gap labels_gap
    ((origin.1 : ℚ), (origin.2 : ℚ)) field_labels

/-- `FieldBlock._calculate_dimensions`. -/
def calculate_dimensions (bubble_dims : ℕ × ℕ) (num_values num_labels : ℕ)
    (bubbles_gap labels_gap : ℚ) (vertical : Bool) : ℤ × ℤ :=
  let bdim_h : ℚ := if vertical then (bubble_dims.2 : ℚ) else (bubble_dims.1 : ℚ)
  let bdim_v : ℚ := if vertical then (bubble_dims.1 : ℚ) else (bubble_dims.2 : ℚ)
  let values_dimension := py_int (bubbles_gap * ((num_values : ℚ) - 1) + bdim_h)
  let fields_dimension := py_int (labels_gap * ((num_labels : ℚ) - 1) + bdim_v)
  if vertical then (fields_dimension, values_dimension)
  else (values_dimension, fields_dimension)

/-- `template_parser.FieldBlock` (the `shift` field is never assigned in the
source and stays 0). -/
structure FieldBlock where
  name : String
  origin : ℤ × ℤ
  bubble_dimensions : ℕ × ℕ
  dimensions : ℤ × ℤ
  traverse_bubbles : List (List Bubble)
  shift : ℤ
  empty_val : String
deriving DecidableEq

/-- `schemas.FIELD_TYPES`: the closed registry mapping a field type to its
`(bubbleValues, direction)`. -/
def FIELD_TYPES : List (String × (List String × String)) :=
  [("QTYPE_INT", (["0","1","2","3","4","5","6","7","8","9"], "vertical")),
   ("QTYPE_INT_FROM_1", (["1","2","3","4","5","6","7","8","9","0"], "vertical")),
   ("QTYPE_MCQ4", (["A","B","C","D"], "horizontal")),
   ("QTYPE_MCQ5", (["A","B","C","D","E"], "horizontal"))]

/-- A block configuration: each key of the Python config dict becomes an
`Option` field (`none` = key absent). -/
structure BlockConfig where
  fieldType : Option String
  bubbleValues : Option (List String)
  bubblesGap : Option ℚ
  labelsGap : Option ℚ
  origin : Option (ℚ × ℚ)
  fieldLabels : Option (List String)
  direction : Option String
  bubbleDimensions : Option (ℕ × ℕ)
  emptyValue : Option String
deriving DecidableEq

/-- A missing required key raises `KeyError(key)` in the source
(`config["bubbleValues"]` etc.); there is no richer template error type. -/
inductive TemplateError where
  | keyError (key : String)
deriving DecidableEq

/-- `FieldBlock.from_config`.  A known `fieldType` overlays the registry's
`bubbleValues` and `direction` onto the block config (registry wins); an
unknown `fieldType` is silently ignored.  The five required keys are read
in source order, the first missing one raising `KeyError`. -/
def FieldBlock.from_config (block_name : String) (block_config : BlockConfig)
    (global_bubble_dims : ℕ × ℕ) (global_empty_val : String) :
    Except TemplateError FieldBlock :=
  let config :=
    match block_config.fieldType.bind
        (fun ft => (FIELD_TYPES.find? (fun p => p.1 == ft)).map (·.2)) with
    | some (bv, dir) =>
      { block_config with bubbleValues := some bv, direction := some dir }
    | none => block_config
  let direction := config.direction.getD "vertical"
  let bubble_dims := config.bubbleDimensions.getD global_bubble_dims
  match config.bubbleValues with
  | none => .error (.keyError "bubbleValues")
  | some bubble_values =>
  match config.bubblesGap with
  | none => .error (.keyError "bubblesGap")
  | some bubbles_gap =>
  match config.labelsGap with
  | none => .error (.keyError "labelsGap")
  | some labels_gap =>
  match config.origin with
  | none => .error (.keyError "origin")
  | some origin_raw =>
  match config.fieldLabels with
  | none => .error (.keyError "fieldLabels")
  | some field_labels =>
    let empty_val := config.emptyValue.getD global_empty_val
    let origin := (py_int origin_raw.1, py_int origin_raw.2)
    .ok { name := block_name
        , origin := origin
        , bubble_dimensions := bubble_dims
        , dimensions := calculate_dimensions bubble_dims bubble_values.length
            field_labels.length bubbles_gap labels_gap (direction == "vertical")
        , traverse_bubbles := generate_bubble_grid origin bubble_values
            bubbles_gap direction labels_gap field_labels
        , shift := 0
        , empty_val := empty_val }

/-- The top-level template configuration tree (`Option` = key absent). -/
structure TemplateConfig where
  pageDimensions : Option (ℕ × ℕ)
  bubbleDimensions : Option (ℕ × ℕ)
  emptyValue : Option String
  outputColumns : Option (List String)
  fieldBlocks : Option (List (String × BlockConfig))
deriving DecidableEq

/-- `template_parser.ParsedTemplate` (the data it holds after `__init__`). -/
structure ParsedTemplate where
  page_dimensions : ℕ × ℕ
  bubble_dimensions : ℕ × ℕ
  empty_val : String
  output_columns : List String
  field_blocks : List FieldBlock
deriving DecidableEq

/-- `ParsedTemplate.__init__`: parse every block in order (first `KeyError`
propagates); when `outputColumns` is absent or empty, auto-fill it with the
first label of every nonempty strip in block order. -/
def parse_template (config : TemplateConfig) : Except TemplateError ParsedTemplate := do
  let page_dimensions := config.pageDimensions.getD (1700, 2600)
  let bubble_dimensions := config.bubbleDimensions.getD (42, 42)
  let empty_val := config.emptyValue.getD ""
  let output_columns0 := config.outputColumns.getD []
  let blocks ← (config.fieldBlocks.getD []).mapM
    (fun p => FieldBlock.from_config p.1 p.2 bubble_dimensions empty_val)
  let output_columns :=
    if output_columns0.isEmpty then
      blocks.foldl (fun acc fb =>
        acc ++ fb.traverse_bubbles.filterMap (fun bl => bl.head?.map (·.field_label))) []
    else output_columns0
  .ok { page_dimensions := page_dimensions
      , bubble_dimensions := bubble_dimensions
      , empty_val := empty_val
      , output_columns := output_columns
      , field_blocks := blocks }

-- ═══════════════ bubble_detector.py ═══════════════

def GLOBAL_PAGE_THRESHOLD_WHITE : ℚ := 200
def GLOBAL_PAGE_THRESHOLD_BLACK : ℚ := 100
def MIN_JUMP : ℚ := 25
def CONFIDENT_SURPLUS : ℚ := 25
def MIN_GAP : ℚ := 30
def SINGLE_MARK_GAP : ℚ := 8
def MULTI_MARK_NEAR_GAP : ℚ := 6

/-- One step of the first-large-gap scan over sorted values `q_vals` with
half-window `ls`: state is `(max1, thr1)`, updated when the windowed jump
`q_vals[i+ls] - q_vals[i-ls]` strictly exceeds the running maximum. -/
def gap_step (q_vals : List ℚ) (ls : ℤ) (mt : ℚ × ℚ) (i : ℤ) : ℚ × ℚ :=
  let jump := q_vals.getD (i + ls).toNat 0 - q_vals.getD (i - ls).toNat 0
  if mt.1 < jump then (jump, q_vals.getD (i - ls).toNat 0 + jump / 2) else mt

/-- `bubble_detector.get_global_threshold`.  The source's second "safety"
pass (`max2`/`thr2`, lines 50-57) is dead code for the returned triple
(`global_thr = thr1`; `j_low`/`j_high` use only `thr1`/`max1`), so it is
not reproduced.  Python's `max1 // 2` is float floor division. -/
def get_global_threshold (q_vals_orig : List ℚ) (looseness : ℕ)
    (page_type : String) : ℚ × ℚ × ℚ :=
  let global_default :=
    if page_type == "white" then GLOBAL_PAGE_THRESHOLD_WHITE
    else GLOBAL_PAGE_THRESHOLD_BLACK
  let q_vals := py_sorted (fun a b => decide (a ≤ b)) q_vals_orig
  let n := q_vals.length
  if n = 0 then (global_default, global_default, global_default)
  else
    let ls : ℤ := ((looseness + 1) / 2 : ℕ)
    let mt := (py_range ls ((n : ℤ) - ls)).foldl (gap_step q_vals ls)
      (MIN_JUMP, global_default)
    (mt.2, mt.2 - (⌊mt.1 / 2⌋ : ℤ), mt.2 + (⌊mt.1 / 2⌋ : ℤ))

/-- `bubble_detector.get_local_threshold` (its `no_outliers` parameter is
never read by the body and is omitted).  `np.max`/`np.min` on an empty
strip raise, hence the `Option`. -/
def get_local_threshold (q_vals_orig : List ℚ) (global_thr : ℚ) : Option ℚ :=
  let q_vals := py_sorted (fun a b => decide (a ≤ b)) q_vals_orig
  let n := q_vals.length
  match q_vals with
  | [] => none
  | q0 :: _ =>
    let qmax := q_vals.foldl max q0
    let qmin := q_vals.foldl min q0
    if n < 3 then
      if qmax - qmin < MIN_GAP then some global_thr
      else some (q_vals.sum / (n : ℚ))
    else
      let mt := (py_range 1 ((n : ℤ) - 1)).foldl (gap_step q_vals 1) (MIN_JUMP, 255)
      let thr1 := if mt.1 < MIN_JUMP + CONFIDENT_SURPLUS then global_thr else mt.2
      some (if qmax ≤ thr1 then (qmin + qmax) / 2
            else if thr1 ≤ qmin then global_thr
            else thr1)

/-- `bubble_detector.select_marked_indices`.  `order[1]` is an out-of-range
access (`IndexError`) when the runaway branch fires on a strip with fewer
than two bubbles, hence the `Option`. -/
def select_marked_indices (q_vals : List ℚ) (threshold : ℚ) : Option (List ℕ) :=
  let marked := (List.range q_vals.length).filter
    (fun i => decide (q_vals.getD i 0 < threshold))
  if marked.isEmpty then some []
  else if marked.length = q_vals.length then
    let order := py_sorted (fun i j => decide (q_vals.getD i 0 ≤ q_vals.getD j 0))
      (List.range q_vals.length)
    match order with
    | darkest :: second :: _ =>
      if SINGLE_MARK_GAP ≤ q_vals.getD second 0 - q_vals.getD darkest 0
      then some [darkest] else some []
    | _ => none
  else if 1 < marked.length then
    let order := py_sorted (fun i j => decide (q_vals.getD i 0 ≤ q_vals.getD j 0)) marked
    match order with
    | darkest :: second :: _ =>
      if SINGLE_MARK_GAP ≤ q_vals.getD second 0 - q_vals.getD darkest 0
      then some [darkest]
      else some (marked.filter
        (fun i => decide (q_vals.getD i 0 - q_vals.getD darkest 0 ≤ MULTI_MARK_NEAR_GAP)))
    | _ => none
  else some marked

/-- The fill-ratio secondary decision path of `detect_bubbles`
(lines 245-259): `sorted(range(n), key=fill, reverse=True)` is a stable
descending sort. -/
def apply_fill_override (q_fill_vals : List ℚ) (marked : List ℕ) : List ℕ :=
  if q_fill_vals.isEmpty then marked
  else
    let order_fill := py_sorted
      (fun i j => decide (q_fill_vals.getD j 0 ≤ q_fill_vals.getD i 0))
      (List.range q_fill_vals.length)
    let top_fill := q_fill_vals.getD (order_fill.headD 0) 0
    let second_fill :=
      if 1 < order_fill.length then q_fill_vals.getD (order_fill.getD 1 0) 0 else 0
    let fill_gap := top_fill - second_fill
    let m1 :=
      if marked.length = 0 ∧ (6/100 : ℚ) ≤ top_fill ∧ (15/1000 : ℚ) ≤ fill_gap
      then [order_fill.headD 0] else marked
    if 2 ≤ m1.length ∧ (7/100 : ℚ) ≤ top_fill ∧ (15/1000 : ℚ) ≤ fill_gap
    then [order_fill.headD 0] else m1

-- ── image-side feature extraction (phase 1) ──

/-- A grayscale image as a row-major grid of 8-bit samples. -/
abbrev Image := List (List ℕ)

/-- `img[y : y + box_h, x : x + box_w]` (numpy slicing clips at the edges). -/
def extract_roi (img : Image) (x y : ℤ) (box_w box_h : ℕ) : Image :=
  (py_slice y (y + (box_h : ℤ)) img).map (py_slice x (x + (box_w : ℤ)))

/-- `roi.size`: total number of pixels of the (clipped) region. -/
def roi_size (roi : Image) : ℕ := (roi.map List.length).sum

/-- numpy shape of the region: (rows, columns of the first row). -/
def roi_shape (roi : Image) : ℕ × ℕ := (roi.length, (roi.headD []).length)

/-- `cv2.mean(roi)[0]`: arithmetic mean of the pixels. -/
def roi_mean (roi : Image) : ℚ :=
  ((roi.map (fun r => (r.map (fun p => (p : ℚ))).sum)).sum) / (roi_size roi : ℚ)

/-- The per-bubble mean of `detect_bubbles` phase 1 (lines 187-192): the
mean of the clipped ROI when it has any pixels, else the sentinel 255. -/
def bubble_mean_val (img : Image) (x y : ℤ) (box_w box_h : ℕ) : ℚ :=
  let roi := extract_roi img x y box_w box_h
  if 0 < roi_size roi then roi_mean roi else 255

/-- The per-bubble fill ratio of phase 1 (lines 193-205).  An empty
clipped ROI yields the sentinel 0.  A full-size ROI (shape equal to
`(box_h, box_w)`) is fed to the native blur/Otsu/inner-mask kernel
`fill_of`.  A clipped but nonempty ROI keeps a smaller shape while
`inner_mask` keeps the block's full `(box_h, box_w)` shape, so
`cv2.bitwise_and(roi_bin_local, inner_mask)` (line 201) raises
`cv2.error` — `none` in this embedding. -/
def bubble_fill_val (fill_of : Image → ℚ) (img : Image) (x y : ℤ)
    (box_w box_h : ℕ) : Option ℚ :=
  let roi := extract_roi img x y box_w box_h
  if 0 < roi_size roi then
    if roi_shape roi = (box_h, box_w) then some (fill_of roi) else none
  else some 0

-- ── phase 3: per-strip decision and response building ──

/-- The data of one question strip as used by phase 3 of `detect_bubbles`:
its bubbles, the phase-1 means and fill ratios, and the owning block's
`empty_val`. -/
structure StripInput where
  bubbles : List Bubble
  q_vals : List ℚ
  fill_vals : List ℚ
  empty_val : String
deriving DecidableEq

/-- The accumulating outputs of `detect_bubbles` phase 3. -/
structure DetectState where
  omr_response : List (String × String)
  multi_marked_count : ℕ
  unmarked_count : ℕ
deriving DecidableEq

/-- Python `label in dict`. -/
def contains_key (m : List (String × α)) (k : String) : Bool :=
  m.any (fun p => p.1 == k)

/-- Python `dict[k] += v` on an existing key (value concatenation in place). -/
def dict_append_value (m : List (String × String)) (k v : String) :
    List (String × String) :=
  m.map (fun p => if p.1 == k then (p.1, p.2 ++ v) else p)

/-- Python `dict[k] = v`: replace in place when the key exists, else append
(insertion order preserved). -/
def dict_set (m : List (String × α)) (k : String) (v : α) : List (String × α) :=
  if contains_key m k then m.map (fun p => if p.1 == k then (p.1, v) else p)
  else m ++ [(k, v)]

/-- Lines 297-302: fold one detected bubble into the response, counting a
multi-mark whenever its label is already present. -/
def respond_bubble (st : DetectState) (b : Bubble) : DetectState :=
  if contains_key st.omr_response b.field_label then
    { omr_response := dict_append_value st.omr_response b.field_label b.field_value
      , multi_marked_count := st.multi_marked_count + 1
      , unmarked_count := st.unmarked_count }
  else
    { omr_response := st.omr_response ++ [(b.field_label, b.field_value)]
      , multi_marked_count := st.multi_marked_count
      , unmarked_count := st.unmarked_count }

/-- Lines 261-268: the strip's detected bubbles, in enumeration order —
the bubbles whose index lies in the final marked set. -/
def strip_detected (s : StripInput) (marked : List ℕ) : List Bubble :=
  (s.bubbles.enum.filter (fun p => marked.contains p.1)).map (·.2)

/-- Lines 296-308: build the response for one strip from its detected
bubbles; an empty detection writes `empty_val` under the strip's first
bubble's label (`field_block_bubbles[0]` raises on an empty strip, hence
`none`) and counts an unmarked question. -/
def strip_respond (st : DetectState) (s : StripInput) (detected : List Bubble) :
    Option DetectState :=
  let st1 := detected.foldl respond_bubble st
  if detected.isEmpty then
    match s.bubbles with
    | [] => none
    | b :: _ =>
      some { omr_response := dict_set st1.omr_response b.field_label s.empty_val
           , multi_marked_count := st1.multi_marked_count
           , unmarked_count := st1.unmarked_count + 1 }
  else some st1

/-- One iteration of the phase-3 strip loop (lines 232-309, drawing
omitted): local threshold, primary selection, fill-ratio override, then
response building; `none` models the exceptions the strip can raise
(`np.max([])`, `order[1]`, `field_block_bubbles[0]` on an empty strip). -/
def process_strip (global_thr : ℚ) (st : DetectState) (s : StripInput) :
    Option DetectState :=
  (get_local_threshold s.q_vals global_thr).bind (fun thr =>
    (select_marked_indices s.q_vals thr).bind (fun marked0 =>
      strip_respond st s (strip_detected s (apply_fill_override s.fill_vals marked0))))

/-- Phases 2-3 of `detect_bubbles` over already-extracted strip features
(`global_std_thresh` and the strip standard deviations feed only the
detector's unused `no_outliers` flag and are not reproduced; they do not
affect any output). -/
def detect_bubbles_pure (strips : List StripInput) : Option DetectState :=
  let all_q_vals := (strips.map (·.q_vals)).flatten
  if all_q_vals.isEmpty then some ⟨[], 0, 0⟩
  else
    let global_thr := (get_global_threshold all_q_vals 4 "white").1
    strips.foldlM (process_strip global_thr) ⟨[], 0, 0⟩

/-- Effectful map over a list in the `Option` monad, written out
structurally: the first `none` (a raised exception in the source loop)
aborts the whole traversal. -/
def mapM_option (f : α → Option β) : List α → Option (List β)
  | [] => some []
  | a :: l => (f a).bind (fun b => (mapM_option f l).map (fun bs => b :: bs))

/-- Build the phase-1 strip inputs of one field block; `none` when any
bubble's fill computation raises (clipped nonempty ROI, see
`bubble_fill_val`), which aborts the scan. -/
def block_strips (img : Image) (fill_of : Image → ℚ) (fb : FieldBlock) :
    Option (List StripInput) :=
  mapM_option (fun bl =>
    (mapM_option (fun b =>
        bubble_fill_val fill_of img (b.x + fb.shift) b.y fb.bubble_dimensions.1
          fb.bubble_dimensions.2) bl).map (fun fills =>
      { bubbles := bl
        , q_vals := bl.map (fun b =>
            bubble_mean_val img (b.x + fb.shift) b.y fb.bubble_dimensions.1
              fb.bubble_dimensions.2)
        , fill_vals := fills
        , empty_val := fb.empty_val })) fb.traverse_bubbles

/-- `bubble_intensities`: label of each nonempty strip mapped (with dict
overwrite semantics) to its phase-1 means. -/
def bubble_intensities_of (strips : List StripInput) : List (String × List ℚ) :=
  strips.foldl (fun m s =>
    match s.bubbles with
    | [] => m
    | b :: _ => dict_set m b.field_label s.q_vals) []

/-- `detect_bubbles` from the (already resized and normalised) grayscale
image onward: phase-1 feature extraction per bubble, then the pure
decision phases.  Returns `(omr_response, bubble_intensities,
multi_marked_count, unmarked_count)`; the annotated image (drawing only)
is not modelled, and any exception — a phase-1 `cv2.error` on a clipped
bubble or a phase-3 strip error — aborts the whole call (`none`). -/
def detect_bubbles (img : Image) (field_blocks : List FieldBlock)
    (fill_of : Image → ℚ) :
    Option (DetectState × List (String × List ℚ)) :=
  (mapM_option (block_strips img fill_of) field_blocks).bind (fun stripss =>
    let strips := stripss.flatten
    (detect_bubbles_pure strips).map (fun st => (st, bubble_intensities_of strips)))

-- ═══════════════ evaluator.py and omr_engine.py (scoring) ═══════════════

/-- `schemas.MarkingScheme` (defaults 1, 0, 0). -/
structure MarkingScheme where
  correct : ℚ := 1
  incorrect : ℚ := 0
  unmarked : ℚ := 0
deriving DecidableEq

/-- `schemas.BubbleResult`. -/
structure BubbleResult where
  question : String
  marked : String
  correct : String
  is_correct : Option Bool
  intensity_values : List ℚ
deriving DecidableEq

/-- Python `dict.get(k, default)` on an association list. -/
def dict_get (m : List (String × α)) (k : String) (default : α) : α :=
  match m.find? (fun p => p.1 == k) with
  | some p => p.2
  | none => default

/-- The body of the `evaluate_response` loop for one answer-key entry
(lines 29-52): the score increment and the emitted `BubbleResult`
(whose `marked` field is `"(unmarked)"` when the detection is missing or
empty). -/
def evaluate_row (scheme : MarkingScheme) (omr_response : List (String × String))
    (bubble_intensities : List (String × List ℚ)) (question correct_answer : String) :
    ℚ × BubbleResult :=
  let marked := dict_get omr_response question ""
  let intensities := dict_get bubble_intensities question []
  if marked = "" then
    (scheme.unmarked,
      { question := question, marked := "(unmarked)", correct := correct_answer
        , is_correct := none, intensity_values := intensities })
  else if py_upper marked = py_upper correct_answer then
    (scheme.correct,
      { question := question, marked := marked, correct := correct_answer
        , is_correct := some true, intensity_values := intensities })
  else
    (scheme.incorrect,
      { question := question, marked := marked, correct := correct_answer
        , is_correct := some false, intensity_values := intensities })

/-- The sort key of `evaluate_response` (lines 55-57): the integer formed
by the digits of the question label, 0 when it has none. -/
def question_sort_key (b : BubbleResult) : ℕ :=
  let digits := b.question.toList.filter Char.isDigit
  digits.foldl (fun n c => n * 10 + (c.toNat - 48)) 0

/-- `evaluator.evaluate_response`: score, total and the per-question rows,
stably sorted by `question_sort_key`. -/
def evaluate_response (omr_response : List (String × String))
    (answer_key : List (String × String)) (scheme : MarkingScheme)
    (bubble_intensities : List (String × List ℚ)) :
    ℚ × ℕ × List BubbleResult :=
  let rows := answer_key.map
    (fun p => evaluate_row scheme omr_response bubble_intensities p.1 p.2)
  let details := py_sorted
    (fun a b => decide (question_sort_key a ≤ question_sort_key b)) (rows.map (·.2))
  ((rows.map (·.1)).sum, answer_key.length, details)

/-- Step 6 of `omr_engine.process_omr_image`: `score`, `total`,
`percentage` and `bubble_details` stay absent (`None` / `[]`) unless a
nonempty answer key is supplied; `percentage = round(score/total*100, 2)`
when `total > 0`. -/
def engine_scoring (omr_response : List (String × String))
    (answer_key : Option (List (String × String))) (scheme : MarkingScheme)
    (bubble_intensities : List (String × List ℚ)) :
    Option ℚ × Option ℕ × Option ℚ × List BubbleResult :=
  match answer_key with
  | none => (none, none, none, [])
  | some key =>
    if key.isEmpty then (none, none, none, [])
    else
      let r := evaluate_response omr_response key scheme bubble_intensities
      (some r.1, some r.2.1,
        if 0 < r.2.1 then some (py_round2 (r.1 / (r.2.1 : ℚ) * 100)) else none,
        r.2.2)

-- ═══════════════ image_processing.py (marker-quad size gates) ═══════════════

/-- The size gate of `_match_markers_in_quadrants` (lines 333-341), shared
by the template-clean and erode-subtract passes: the pass yields no
markers when the detected quad's width or height (already computed from
the four matched centres) is below 30% of the processed image's. -/
def match_markers_quad_too_small (detected_w detected_h w1 h1 : ℚ) : Bool :=
  decide (detected_w < w1 * (3/10)) || decide (detected_h < h1 * (3/10))

/-- The size gate of `crop_on_markers_contour` (lines 456-459): the
contour-square pass yields no markers when the detected quad's width or
height is below 35% of the input image's. -/
def contour_crop_quad_too_small (detected_w detected_h w h : ℚ) : Bool :=
  decide (detected_w < w * (35/100)) || decide (detected_h < h * (35/100))

/-- A trivial fill-ratio kernel used for concrete test inputs. -/
def zero_fill : Image → ℚ := fun _ => 0

-- ═══════════════ helper lemmas ═══════════════

theorem insert_stable_perm (le : α → α → Bool) (x : α) (l : List α) :
    List.Perm (insert_stable le x l) (x :: l) := by
  induction l with
  | nil => simp [insert_stable]
  | cons y ys ih =>
    simp only [insert_stable]
    by_cases h : le y x = true
    · simp only [h, if_true]
      exact (ih.cons y).trans (List.Perm.swap x y ys)
    · simp [h]

theorem py_sorted_perm (le : α → α → Bool) (l : List α) :
    List.Perm (py_sorted le l) l := by
  suffices h : ∀ acc : List α,
      List.Perm (l.foldl (fun acc x => insert_stable le x acc) acc) (acc ++ l) by
    simpa using h []
  induction l with
  | nil => simp
  | cons x xs ih =>
    intro acc
    simp only [List.foldl_cons]
    refine (ih (insert_stable le x acc)).trans ?_
    have h1 := (insert_stable_perm le x acc).append_right xs
    exact h1.trans List.perm_middle.symm

theorem insert_stable_of_all_le (le : α → α → Bool) (x : α) (l : List α)
    (h : ∀ a ∈ l, le a x = true) : insert_stable le x l = l ++ [x] := by
  induction l with
  | nil => rfl
  | cons y ys ih =>
    simp only [insert_stable, h y (by simp), if_true, List.cons_append]
    rw [ih (fun a ha => h a (by simp [ha]))]

theorem py_sorted_of_pairwise (le : α → α → Bool) (l : List α)
    (h : l.Pairwise (fun a b => le a b = true)) : py_sorted le l = l := by
  suffices hgen : ∀ acc : List α, (∀ x ∈ l, ∀ a ∈ acc, le a x = true) →
      l.Pairwise (fun a b => le a b = true) →
      l.foldl (fun acc x => insert_stable le x acc) acc = acc ++ l by
    simpa using hgen [] (by simp) h
  clear h
  induction l with
  | nil => intro acc _ _; simp
  | cons x xs ih =>
    intro acc hacc hpw
    simp only [List.foldl_cons]
    rw [insert_stable_of_all_le le x acc (hacc x (by simp))]
    rw [ih (acc ++ [x]) ?_ (List.Pairwise.of_cons hpw)]
    · simp
    · intro z hz a ha
      rcases List.mem_append.mp ha with ha | ha
      · exact hacc z (by simp [hz]) a ha
      · have := (List.pairwise_cons.mp hpw).1 z hz
        simpa [List.mem_singleton.mp ha] using this

theorem mem_py_range {a b i : ℤ} : i ∈ py_range a b ↔ a ≤ i ∧ i < b := by
  unfold py_range
  constructor
  · suffices h : ∀ n : ℕ, ∀ a : ℤ, i ∈ py_range_from a n → a ≤ i ∧ i < a + n by
      intro hi
      obtain ⟨h1, h2⟩ := h _ _ hi
      refine ⟨h1, lt_of_lt_of_le h2 ?_⟩
      omega
    intro n
    induction n with
    | zero => intro a h; simp [py_range_from] at h
    | succ m ih =>
      intro a h
      simp only [py_range_from, List.mem_cons] at h
      rcases h with rfl | h
      · omega
      · have := ih (a + 1) h
        omega
  · rintro ⟨h1, h2⟩
    suffices h : ∀ n : ℕ, ∀ a : ℤ, a ≤ i → i < a + n → i ∈ py_range_from a n by
      exact h _ a h1 (by omega)
    intro n
    induction n with
    | zero => intro a ha hb; omega
    | succ m ih =>
      intro a ha hb
      simp only [py_range_from, List.mem_cons]
      by_cases hai : i = a
      · exact Or.inl hai
      · exact Or.inr (ih (a + 1) (by omega) (by omega))

theorem py_range_append (a c b : ℤ) (h1 : a ≤ c) (h2 : c ≤ b) :
    py_range a b = py_range a c ++ py_range c b := by
  unfold py_range
  suffices h : ∀ m n : ℕ, ∀ a : ℤ,
      py_range_from a (m + n) = py_range_from a m ++ py_range_from (a + m) n by
    have hm : (b - a).toNat = (c - a).toNat + (b - c).toNat := by omega
    rw [hm, h]
    have hca : a + (((c - a).toNat : ℕ) : ℤ) = c := by omega
    rw [hca]
  intro m
  induction m with
  | zero => intro n a; simp [py_range_from]
  | succ p ih =>
    intro n a
    have : p + 1 + n = (p + n) + 1 := by omega
    rw [this]
    simp only [py_range_from, List.cons_append]
    rw [ih]
    have hc : a + 1 + ((p : ℕ) : ℤ) = a + (((p + 1 : ℕ)) : ℤ) := by push_cast; ring
    rw [hc]

theorem foldl_gap_step_no_update (q : List ℚ) (ls : ℤ) (I : List ℤ) (mt : ℚ × ℚ)
    (h : ∀ i ∈ I, q.getD (i + ls).toNat 0 - q.getD (i - ls).toNat 0 ≤ mt.1) :
    I.foldl (gap_step q ls) mt = mt := by
  induction I with
  | nil => rfl
  | cons i is ih =>
    simp only [List.foldl_cons]
    have hni : ¬ mt.1 < q.getD (i + ls).toNat 0 - q.getD (i - ls).toNat 0 :=
      not_lt.mpr (h i (by simp))
    simp only [gap_step, if_neg hni]
    exact ih (fun j hj => h j (by simp [hj]))

-- ═══════════════ claim theorems ═══════════════

set_option maxHeartbeats 1600000 in
set_option maxRecDepth 8000 in
/-- **C1** (code_bug).  A template block with one question having a single
choice does populate the grid, but detection does not always produce that
choice or `empty_val`: when the lone bubble falls below the strip
threshold, `select_marked_indices` marks every (that is, the only) bubble,
enters the threshold-runaway branch and evaluates `order[1]` on a
one-element order — an `IndexError` (`none` in this embedding).  Shown
end-to-end on a one-pixel-per-bubble image whose single bubble has mean
100 against the global default threshold 200, and directly on
`select_marked_indices`. -/
theorem claim_C1_one_choice_strip_crashes :
    select_marked_indices [100] 200 = none ∧
    detect_bubbles [[100]]
      [{ name := "Block1", origin := (0, 0), bubble_dimensions := (1, 1)
         , dimensions := (1, 1)
         , traverse_bubbles := [[{ x := 0, y := 0, field_label := "q1", field_value := "A" }]]
         , shift := 0, empty_val := "" }]
      zero_fill = none := by
  constructor
  · norm_num [select_marked_indices, py_sorted, insert_stable, List.range_succ,
      SINGLE_MARK_GAP, MULTI_MARK_NEAR_GAP]
  · norm_num [detect_bubbles, detect_bubbles_pure, block_strips, bubble_mean_val,
      bubble_fill_val, extract_roi, py_slice, py_slice_index, roi_size, roi_shape,
      roi_mean, zero_fill, process_strip, strip_detected, strip_respond,
      get_local_threshold, get_global_threshold,
      select_marked_indices, py_sorted, insert_stable, py_range, py_range_from,
      Int.toNat, gap_step, apply_fill_override, GLOBAL_PAGE_THRESHOLD_WHITE,
      MIN_JUMP, MIN_GAP, List.range_succ, mapM_option,
      Option.some_bind, Option.none_bind]

/-- **C6** (corrected, counterexample).  A bubble extending past the right
edge of a 2×2 zero image: its clipped ROI has shape (2,1) ≠ (2,2) but is
nonempty, and the detector computes the clipped region's mean 0 — not the
sentinel 255 the claim promises for every shape mismatch — and the fill
step then raises `cv2.error` on the mask shape mismatch (`none` here)
instead of emitting the sentinel fill ratio 0. -/
theorem claim_C6_counterexample :
    roi_shape (extract_roi [[0,0],[0,0]] 1 0 2 2) ≠ (2, 2) ∧
    0 < roi_size (extract_roi [[0,0],[0,0]] 1 0 2 2) ∧
    bubble_mean_val [[0,0],[0,0]] 1 0 2 2 = 0 ∧ (0 : ℚ) ≠ 255 ∧
    bubble_fill_val zero_fill [[0,0],[0,0]] 1 0 2 2 = none := by
  norm_num [extract_roi, py_slice, py_slice_index, roi_shape, roi_size, roi_mean,
    bubble_mean_val, bubble_fill_val]

/-- **C6** (amended).  The sentinel pair (mean 255, fill ratio 0) is
emitted exactly when the clipped ROI has no pixels at all (the bubble lies
fully outside the image).  A fully inside bubble (ROI shape equal to the
bubble size) gets its ROI mean and the fill kernel's value.  A bubble only
partially outside gets the mean of its clipped region, but its fill step
raises `cv2.error` — the clipped binary ROI no longer matches the
full-size inner mask at `cv2.bitwise_and` — aborting the scan rather than
emitting any sentinel. -/
theorem claim_C6_sentinel_iff_empty_roi :
    ∀ (img : Image) (x y : ℤ) (box_w box_h : ℕ) (fill_of : Image → ℚ),
    (roi_size (extract_roi img x y box_w box_h) = 0 →
      bubble_mean_val img x y box_w box_h = 255 ∧
      bubble_fill_val fill_of img x y box_w box_h = some 0) ∧
    (0 < roi_size (extract_roi img x y box_w box_h) →
      roi_shape (extract_roi img x y box_w box_h) = (box_h, box_w) →
      bubble_mean_val img x y box_w box_h = roi_mean (extract_roi img x y box_w box_h) ∧
      bubble_fill_val fill_of img x y box_w box_h =
        some (fill_of (extract_roi img x y box_w box_h))) ∧
    (0 < roi_size (extract_roi img x y box_w box_h) →
      roi_shape (extract_roi img x y box_w box_h) ≠ (box_h, box_w) →
      bubble_mean_val img x y box_w box_h = roi_mean (extract_roi img x y box_w box_h) ∧
      bubble_fill_val fill_of img x y box_w box_h = none) := by
  intro img x y box_w box_h fill_of
  refine ⟨?_, ?_, ?_⟩
  · intro h0
    simp [bubble_mean_val, bubble_fill_val, h0]
  · intro hpos hshape
    simp [bubble_mean_val, bubble_fill_val, hpos, hshape]
  · intro hpos hshape
    simp [bubble_mean_val, bubble_fill_val, hpos, hshape]

/-- Witness for `claim_C6_sentinel_iff_empty_roi`: a bubble fully below a
1×1 image gets the sentinel features, and a bubble hanging off the right
edge of a 2×2 image gets its clipped mean with the fill step raising. -/
theorem claim_C6_sentinel_iff_empty_roi_witness :
    (bubble_mean_val [[7]] 0 5 2 2 = 255 ∧
      bubble_fill_val zero_fill [[7]] 0 5 2 2 = some 0) ∧
    (bubble_mean_val [[9,9],[9,9]] 1 0 2 2 =
        roi_mean (extract_roi [[9,9],[9,9]] 1 0 2 2) ∧
      bubble_fill_val zero_fill [[9,9],[9,9]] 1 0 2 2 = none) := by
  constructor
  · exact (claim_C6_sentinel_iff_empty_roi [[7]] 0 5 2 2 zero_fill).1
      (by norm_num [extract_roi, py_slice, py_slice_index, roi_size])
  · exact (claim_C6_sentinel_iff_empty_roi [[9,9],[9,9]] 1 0 2 2 zero_fill).2.2
      (by norm_num [extract_roi, py_slice, py_slice_index, roi_size])
      (by norm_num [extract_roi, py_slice, py_slice_index, roi_shape])

/-- **C8** (corrected, counterexample).  A detected marker quad whose
width is 32% of the image width (height 90%): the contour-square pass
rejects it (32% < 35%) but the quadrant template-matching passes accept it
— their bound is 30%, so the claimed uniform 35% bound is false. -/
theorem claim_C8_counterexample :
    contour_crop_quad_too_small 32 90 100 100 = true ∧
    match_markers_quad_too_small 32 90 100 100 = false := by
  constructor
  · norm_num [contour_crop_quad_too_small]
  · norm_num [match_markers_quad_too_small]

/-- **C8** (amended).  The contour-square pass rejects its detected quad
below 35% of the image dimensions, while both template-matching passes
(which share `_match_markers_in_quadrants`) reject theirs below 30%. -/
theorem claim_C8_pass_size_gates :
    ∀ detected_w detected_h w h : ℚ,
    (contour_crop_quad_too_small detected_w detected_h w h = true ↔
      detected_w < w * (35/100) ∨ detected_h < h * (35/100)) ∧
    (match_markers_quad_too_small detected_w detected_h w h = true ↔
      detected_w < w * (3/10) ∨ detected_h < h * (3/10)) := by
  intro dw dh w h
  constructor
  · simp [contour_crop_quad_too_small]
  · simp [match_markers_quad_too_small]

/-- Witness for `claim_C8_pass_size_gates` at a concrete quad. -/
theorem claim_C8_pass_size_gates_witness :
    contour_crop_quad_too_small 10 10 100 100 = true ∧
    match_markers_quad_too_small 10 10 100 100 = true := by
  refine ⟨((claim_C8_pass_size_gates 10 10 100 100).1).mpr ?_,
          ((claim_C8_pass_size_gates 10 10 100 100).2).mpr ?_⟩
  · left; norm_num
  · left; norm_num

/-- **C9** (confirmed).  Bubble detection is a pure function of the
preprocessed image, the parsed field blocks and the fill kernel — the
source reads no randomness, time or global mutable state — so equal
inputs give identical responses, intensity maps and counts. -/
theorem claim_C9_detection_deterministic :
    ∀ (img1 img2 : Image) (fbs1 fbs2 : List FieldBlock) (f1 f2 : Image → ℚ),
    img1 = img2 → fbs1 = fbs2 → f1 = f2 →
    detect_bubbles img1 fbs1 f1 = detect_bubbles img2 fbs2 f2 := by
  intro img1 img2 fbs1 fbs2 f1 f2 h1 h2 h3
  rw [h1, h2, h3]

/-- Witness for `claim_C9_detection_deterministic` at a concrete scan. -/
theorem claim_C9_detection_deterministic_witness :
    detect_bubbles [[0]] [] zero_fill = detect_bubbles [[0]] [] zero_fill :=
  claim_C9_detection_deterministic [[0]] [[0]] [] [] zero_fill zero_fill rfl rfl rfl

theorem evaluate_row_fst (scheme : MarkingScheme) (omr : List (String × String))
    (ints : List (String × List ℚ)) (q a : String) :
    (evaluate_row scheme omr ints q a).1 =
      if dict_get omr q "" = "" then scheme.unmarked
      else if py_upper (dict_get omr q "") = py_upper a then scheme.correct
      else scheme.incorrect := by
  simp only [evaluate_row]
  split_ifs <;> rfl

/-- **C5** (confirmed).  The evaluator adds `unmarked` for a key whose
detection is missing or empty, `correct` when the uppercased detection
equals the uppercased expected answer, `incorrect` otherwise; `total` is
the number of answer-key entries, and the orchestrator's `percentage` is
`round(score/total*100, 2)` exactly when the answer key is nonempty and is
absent otherwise. -/
theorem claim_C5_evaluator_scoring :
    ∀ (omr key : List (String × String)) (scheme : MarkingScheme)
      (ints : List (String × List ℚ)),
    (evaluate_response omr key scheme ints).1 =
      (key.map (fun p =>
        if dict_get omr p.1 "" = "" then scheme.unmarked
        else if py_upper (dict_get omr p.1 "") = py_upper p.2 then scheme.correct
        else scheme.incorrect)).sum ∧
    (evaluate_response omr key scheme ints).2.1 = key.length ∧
    (engine_scoring omr (some key) scheme ints).2.2.1 =
      (if key.isEmpty then none
       else some (py_round2 ((evaluate_response omr key scheme ints).1 /
          (((evaluate_response omr key scheme ints).2.1 : ℕ) : ℚ) * 100))) ∧
    engine_scoring omr none scheme ints = (none, none, none, []) := by
  intro omr key scheme ints
  refine ⟨?_, rfl, ?_, rfl⟩
  · show ((key.map (fun p => evaluate_row scheme omr ints p.1 p.2)).map (·.1)).sum = _
    rw [List.map_map]
    congr 1
    apply List.map_congr_left
    intro p _
    exact evaluate_row_fst scheme omr ints p.1 p.2
  · unfold engine_scoring
    by_cases hk : key.isEmpty
    · simp [hk]
    · have hpos : 0 < (evaluate_response omr key scheme ints).2.1 := by
        show 0 < key.length
        cases key with
        | nil => simp at hk
        | cons a l => simp
      simp only [hk, Bool.false_eq_true, if_false, if_pos hpos]

/-- **C10** (confirmed).  For an answer-key entry whose detection is
missing or empty, the emitted row carries the literal string
`"(unmarked)"` in its `marked` field, the tri-state is `null` and the
score contribution is the scheme's `unmarked` weight; the row appears in
the final (sorted) `bubble_details`. -/
theorem claim_C10_unmarked_placeholder :
    ∀ (omr key : List (String × String)) (scheme : MarkingScheme)
      (ints : List (String × List ℚ)) (q a : String),
    (q, a) ∈ key → dict_get omr q "" = "" →
    evaluate_row scheme omr ints q a =
      (scheme.unmarked,
        { question := q, marked := "(unmarked)", correct := a
          , is_correct := none, intensity_values := dict_get ints q [] }) ∧
    ({ question := q, marked := "(unmarked)", correct := a
       , is_correct := none, intensity_values := dict_get ints q [] } : BubbleResult) ∈
      (evaluate_response omr key scheme ints).2.2 := by
  intro omr key scheme ints q a hmem hempty
  have hrow : evaluate_row scheme omr ints q a =
      (scheme.unmarked,
        { question := q, marked := "(unmarked)", correct := a
          , is_correct := none, intensity_values := dict_get ints q [] }) := by
    simp only [evaluate_row]
    rw [if_pos hempty]
  refine ⟨hrow, ?_⟩
  show _ ∈ py_sorted _ ((key.map (fun p => evaluate_row scheme omr ints p.1 p.2)).map (·.2))
  rw [(py_sorted_perm _ _).mem_iff, List.map_map]
  refine List.mem_map.mpr ⟨(q, a), hmem, ?_⟩
  show (evaluate_row scheme omr ints q a).2 = _
  rw [hrow]

/-- Witness for `claim_C10_unmarked_placeholder`: key `q1 → A` with an
empty detection map. -/
theorem claim_C10_unmarked_placeholder_witness :
    evaluate_row { correct := 1, incorrect := 0, unmarked := 0 } [] [] "q1" "A" =
      (0, { question := "q1", marked := "(unmarked)", correct := "A"
            , is_correct := none, intensity_values := [] }) ∧
    ({ question := "q1", marked := "(unmarked)", correct := "A"
       , is_correct := none, intensity_values := [] } : BubbleResult) ∈
      (evaluate_response [] [("q1", "A")]
        { correct := 1, incorrect := 0, unmarked := 0 } []).2.2 :=
  claim_C10_unmarked_placeholder [] [("q1", "A")]
    { correct := 1, incorrect := 0, unmarked := 0 } [] "q1" "A" (by simp) rfl

/-- **C7** (corrected, counterexample).  A configuration with an empty
`fieldBlocks` mapping parses successfully into a template with zero
blocks (no `InvalidTemplate`-style failure), and a block naming an
unknown `fieldType` but carrying explicit `bubbleValues` also parses
successfully — contradicting the claim that these configurations fail
with a configuration-invalid error rather than proceeding to detection. -/
theorem claim_C7_counterexample :
    parse_template
      { pageDimensions := none, bubbleDimensions := none,
        emptyValue := none, outputColumns := none, fieldBlocks := some [] } =
      Except.ok
        { page_dimensions := (1700, 2600), bubble_dimensions := (42, 42),
          empty_val := "", output_columns := [], field_blocks := [] } ∧
    (FieldBlock.from_config "Block1"
      { fieldType := some "QTYPE_BOGUS", bubbleValues := some ["A"],
        bubblesGap := some 1, labelsGap := some 1, origin := some (0, 0),
        fieldLabels := some ["q1"], direction := none, bubbleDimensions := none,
        emptyValue := none } (42, 42) "").isOk = true := by
  constructor
  · rfl
  · rfl

/-- **C7** (amended).  A block whose `fieldType` is absent or unknown and
whose `bubbleValues` key is missing fails with a bare `KeyError` naming
only the key (`"bubbleValues"`), not the block; an empty `fieldBlocks`
mapping parses successfully to a template with no blocks and detection
proceeds. -/
theorem claim_C7_parser_error_behaviour :
    (∀ (block_name : String) (cfg : BlockConfig) (gd : ℕ × ℕ) (ge : String),
      (cfg.fieldType = none ∨
        ∃ ft, cfg.fieldType = some ft ∧
          FIELD_TYPES.find? (fun p => p.1 == ft) = none) →
      cfg.bubbleValues = none →
      FieldBlock.from_config block_name cfg gd ge = .error (.keyError "bubbleValues")) ∧
    (∀ cfg : TemplateConfig, cfg.fieldBlocks = some [] →
      ∃ t, parse_template cfg = .ok t ∧ t.field_blocks = []) := by
  constructor
  · intro block_name cfg gd ge hft hbv
    have hov : cfg.fieldType.bind
        (fun ft => (FIELD_TYPES.find? (fun p => p.1 == ft)).map (·.2)) = none := by
      rcases hft with h | ⟨ft, hft, hfind⟩
      · rw [h]; rfl
      · rw [hft]
        simp [Option.bind, hfind]
    simp only [FieldBlock.from_config, hov, hbv]
  · intro cfg hfb
    refine ⟨{ page_dimensions := cfg.pageDimensions.getD (1700, 2600),
              bubble_dimensions := cfg.bubbleDimensions.getD (42, 42),
              empty_val := cfg.emptyValue.getD "",
              output_columns :=
                if (cfg.outputColumns.getD []).isEmpty then []
                else cfg.outputColumns.getD [],
              field_blocks := [] }, ?_, rfl⟩
    simp only [parse_template, hfb, Option.getD_some, List.mapM_nil]
    rfl

/-- Witness for `claim_C7_parser_error_behaviour`: a block config with no
`fieldType` and no `bubbleValues`, and a template with an empty
`fieldBlocks` mapping. -/
theorem claim_C7_parser_error_behaviour_witness :
    FieldBlock.from_config "Block1"
      { fieldType := none, bubbleValues := none, bubblesGap := some 1,
        labelsGap := some 1, origin := some (0, 0), fieldLabels := some ["q1"],
        direction := none, bubbleDimensions := none, emptyValue := none }
      (42, 42) "" = .error (.keyError "bubbleValues") ∧
    (∃ t, parse_template
      { pageDimensions := none, bubbleDimensions := none,
        emptyValue := none, outputColumns := none,
        fieldBlocks := some [] } = .ok t ∧ t.field_blocks = []) :=
  ⟨claim_C7_parser_error_behaviour.1 "Block1" _ (42, 42) "" (Or.inl rfl) rfl,
   claim_C7_parser_error_behaviour.2 _ rfl⟩

theorem gen_field_bubbles_getD (vertical : Bool) (lbl : String) (bg : ℚ) :
    ∀ (values : List String) (j : ℕ), j < values.length → ∀ bp : ℚ × ℚ,
    (gen_field_bubbles vertical lbl bg bp values).getD j default =
      { x := py_round (bp.1 + (j : ℚ) * (if vertical then 0 else bg))
        , y := py_round (bp.2 + (j : ℚ) * (if vertical then bg else 0))
        , field_label := lbl, field_value := values.getD j "" } := by
  intro values
  induction values with
  | nil => intro j hj; simp at hj
  | cons v vs ih =>
    intro j hj bp
    cases j with
    | zero => simp [gen_field_bubbles]
    | succ m =>
      have hm : m < vs.length := by simpa using hj
      simp only [gen_field_bubbles, List.getD_cons_succ]
      rw [ih m hm (adv_h vertical bp bg)]
      have hx : (adv_h vertical bp bg).1 + (m : ℚ) * (if vertical then 0 else bg)
          = bp.1 + ((m + 1 : ℕ) : ℚ) * (if vertical then 0 else bg) := by
        cases vertical <;> simp [adv_h] <;> push_cast <;> ring
      have hy : (adv_h vertical bp bg).2 + (m : ℚ) * (if vertical then bg else 0)
          = bp.2 + ((m + 1 : ℕ) : ℚ) * (if vertical then bg else 0) := by
        cases vertical <;> simp [adv_h] <;> push_cast <;> ring
      rw [hx, hy]

theorem gen_grid_getD (vertical : Bool) (values : List String) (bg lg : ℚ) :
    ∀ (labels : List String) (i : ℕ), i < labels.length → ∀ lead : ℚ × ℚ,
    (gen_grid vertical values bg lg lead labels).getD i [] =
      gen_field_bubbles vertical (labels.getD i "") bg
        (lead.1 + (i : ℚ) * (if vertical then lg else 0),
         lead.2 + (i : ℚ) * (if vertical then 0 else lg)) values := by
  intro labels
  induction labels with
  | nil => intro i hi; simp at hi
  | cons lab labs ih =>
    intro i hi lead
    cases i with
    | zero => simp [gen_grid]
    | succ m =>
      have hm : m < labs.length := by simpa using hi
      simp only [gen_grid, List.getD_cons_succ]
      rw [ih m hm (adv_v vertical lead lg)]
      have hp : ((adv_v vertical lead lg).1 + (m : ℚ) * (if vertical then lg else 0),
                 (adv_v vertical lead lg).2 + (m : ℚ) * (if vertical then 0 else lg))
          = (lead.1 + ((m + 1 : ℕ) : ℚ) * (if vertical then lg else 0),
             lead.2 + ((m + 1 : ℕ) : ℚ) * (if vertical then 0 else lg)) := by
        cases vertical <;> simp [adv_v, Prod.mk.injEq] <;> push_cast <;> ring
      rw [hp]

/-- **C3** (confirmed).  The parser's bubble for question index `i` and
choice index `j` sits at the origin advanced by `j·bubbles_gap` along the
choice axis `_h` and by `i·labels_gap` along the question axis `_v`
(axis 1 resp. 0 of the point when the direction is vertical, swapped
otherwise), each coordinate rounded to the nearest integer (Python
`round`, half to even); and equal configurations always produce identical
grids. -/
theorem claim_C3_bubble_grid_coordinates :
    ∀ (origin : ℤ × ℤ) (bubble_values : List String) (bubbles_gap : ℚ)
      (direction : String) (labels_gap : ℚ) (field_labels : List String)
      (i j : ℕ), i < field_labels.length → j < bubble_values.length →
    (((generate_bubble_grid origin bubble_values bubbles_gap direction labels_gap
        field_labels).getD i []).getD j default =
      { x := py_round ((origin.1 : ℚ) +
          (if direction == "vertical" then (i : ℚ) * labels_gap
           else (j : ℚ) * bubbles_gap))
        , y := py_round ((origin.2 : ℚ) +
          (if direction == "vertical" then (j : ℚ) * bubbles_gap
           else (i : ℚ) * labels_gap))
        , field_label := field_labels.getD i ""
        , field_value := bubble_values.getD j "" }) ∧
    (∀ (o2 : ℤ × ℤ) (bv2 : List String) (bg2 : ℚ) (d2 : String) (lg2 : ℚ)
      (fl2 : List String), origin = o2 → bubble_values = bv2 → bubbles_gap = bg2 →
      direction = d2 → labels_gap = lg2 → field_labels = fl2 →
      generate_bubble_grid origin bubble_values bubbles_gap direction labels_gap
        field_labels =
      generate_bubble_grid o2 bv2 bg2 d2 lg2 fl2) := by
  intro origin bv bg dir lg fl i j hi hj
  constructor
  · unfold generate_bubble_grid
    rw [gen_grid_getD (dir == "vertical") bv bg lg fl i hi
      ((origin.1 : ℚ), (origin.2 : ℚ))]
    rw [gen_field_bubbles_getD (dir == "vertical") (fl.getD i "") bg bv j hj]
    cases hv : (dir == "vertical") <;> simp
  · intro o2 bv2 bg2 d2 lg2 fl2 h1 h2 h3 h4 h5 h6
    rw [h1, h2, h3, h4, h5, h6]

/-- Witness for `claim_C3_bubble_grid_coordinates`: the second choice of
the second question of a vertical block at origin (90, 680) with
`bubbles_gap = 57` and `labels_gap = 75.6` sits at
(round(90 + 75.6), round(680 + 57)) = (166, 737). -/
theorem claim_C3_bubble_grid_coordinates_witness :
    ((generate_bubble_grid (90, 680) ["A", "B"] 57 "vertical" (378/5)
        ["q1", "q2"]).getD 1 []).getD 1 default =
      { x := 166, y := 737, field_label := "q2", field_value := "B" } := by
  have h := (claim_C3_bubble_grid_coordinates (90, 680) ["A", "B"] 57 "vertical"
    (378/5) ["q1", "q2"] 1 1 (by norm_num) (by norm_num)).1
  rw [h]
  norm_num [py_round]

theorem contains_key_iff (m : List (String × α)) (k : String) :
    contains_key m k = true ↔ k ∈ m.map Prod.fst := by
  unfold contains_key
  rw [List.any_eq_true]
  constructor
  · rintro ⟨p, hp, hpk⟩
    simp only [beq_iff_eq] at hpk
    exact List.mem_map.mpr ⟨p, hp, hpk⟩
  · intro hk
    obtain ⟨p, hp, hpk⟩ := List.mem_map.mp hk
    exact ⟨p, hp, by simp [hpk]⟩

theorem dict_append_value_keys (m : List (String × String)) (k v : String) :
    (dict_append_value m k v).map Prod.fst = m.map Prod.fst := by
  unfold dict_append_value
  rw [List.map_map]
  apply List.map_congr_left
  intro p _
  by_cases h : p.1 = k <;> simp [h]

theorem dict_set_keys (m : List (String × α)) (k : String) (v : α) :
    (dict_set m k v).map Prod.fst ⊆ m.map Prod.fst ++ [k] := by
  unfold dict_set
  by_cases h : contains_key m k
  · rw [if_pos h]
    have heq : (m.map (fun p => if p.1 == k then (p.1, v) else p)).map Prod.fst =
        m.map Prod.fst := by
      rw [List.map_map]
      apply List.map_congr_left
      intro p _
      by_cases hpk : p.1 = k <;> simp [hpk]
    rw [heq]
    exact List.subset_append_left _ _
  · rw [if_neg h]
    simp

theorem respond_bubble_counts (st : DetectState) (b : Bubble) :
    (respond_bubble st b).multi_marked_count ≤ st.multi_marked_count + 1 ∧
    (respond_bubble st b).unmarked_count = st.unmarked_count := by
  unfold respond_bubble
  split_ifs <;> simp

theorem respond_bubble_fresh (st : DetectState) (b : Bubble)
    (h : b.field_label ∉ st.omr_response.map Prod.fst) :
    (respond_bubble st b).multi_marked_count = st.multi_marked_count ∧
    (respond_bubble st b).unmarked_count = st.unmarked_count := by
  have hc : ¬ contains_key st.omr_response b.field_label = true := by
    rw [contains_key_iff]
    exact h
  unfold respond_bubble
  rw [if_neg hc]
  exact ⟨rfl, rfl⟩

theorem respond_bubble_keys (st : DetectState) (b : Bubble) :
    (respond_bubble st b).omr_response.map Prod.fst ⊆
      st.omr_response.map Prod.fst ++ [b.field_label] := by
  unfold respond_bubble
  split_ifs with h
  · show (dict_append_value st.omr_response b.field_label b.field_value).map Prod.fst ⊆ _
    rw [dict_append_value_keys]
    exact List.subset_append_left _ _
  · simp

theorem foldl_respond_basic : ∀ (l : List Bubble) (st : DetectState),
    (l.foldl respond_bubble st).multi_marked_count ≤ st.multi_marked_count + l.length ∧
    (l.foldl respond_bubble st).unmarked_count = st.unmarked_count ∧
    (l.foldl respond_bubble st).omr_response.map Prod.fst ⊆
      st.omr_response.map Prod.fst ++ l.map (·.field_label) := by
  intro l
  induction l with
  | nil => intro st; simp
  | cons b bs ih =>
    intro st
    simp only [List.foldl_cons, List.map_cons, List.length_cons]
    obtain ⟨h1, h2, h3⟩ := ih (respond_bubble st b)
    obtain ⟨g1, g2⟩ := respond_bubble_counts st b
    refine ⟨by omega, by rw [h2, g2], ?_⟩
    refine h3.trans ?_
    intro x hx
    rcases List.mem_append.mp hx with hx | hx
    · rcases List.mem_append.mp (respond_bubble_keys st b hx) with h | h
      · exact List.mem_append.mpr (Or.inl h)
      · simp only [List.mem_singleton] at h
        simp [h]
    · simp [hx]

theorem foldl_respond_fresh (b : Bubble) (bs : List Bubble) (st : DetectState)
    (h : b.field_label ∉ st.omr_response.map Prod.fst) :
    ((b :: bs).foldl respond_bubble st).multi_marked_count ≤
      st.multi_marked_count + bs.length ∧
    ((b :: bs).foldl respond_bubble st).unmarked_count = st.unmarked_count := by
  simp only [List.foldl_cons]
  obtain ⟨f1, f2⟩ := respond_bubble_fresh st b h
  obtain ⟨h1, h2, _⟩ := foldl_respond_basic bs (respond_bubble st b)
  exact ⟨by omega, by omega⟩

theorem strip_detected_sublist (s : StripInput) (marked : List ℕ) :
    (strip_detected s marked).Sublist s.bubbles := by
  have h1 : ((s.bubbles.enum.filter (fun p => marked.contains p.1)).map
      Prod.snd).Sublist (s.bubbles.enum.map Prod.snd) :=
    (List.filter_sublist _).map _
  rw [List.enum_map_snd] at h1
  exact h1

theorem strip_respond_bound (st : DetectState) (s : StripInput)
    (detected : List Bubble) (st' : DetectState)
    (hp : strip_respond st s detected = some st')
    (hsub : detected.Sublist s.bubbles)
    (hfresh : ∀ lab ∈ s.bubbles.map (·.field_label),
      lab ∉ st.omr_response.map Prod.fst) :
    st'.multi_marked_count + st'.unmarked_count ≤
      st.multi_marked_count + st.unmarked_count + max 1 (s.bubbles.length - 1) ∧
    st'.omr_response.map Prod.fst ⊆
      st.omr_response.map Prod.fst ++ s.bubbles.map (·.field_label) := by
  unfold strip_respond at hp
  cases hd : detected with
  | nil =>
    subst hd
    simp only [List.isEmpty_nil, if_true, List.foldl_nil] at hp
    cases hb : s.bubbles with
    | nil => rw [hb] at hp; exact absurd hp (by simp)
    | cons b rest =>
      rw [hb] at hp
      have hst : st' = { omr_response := dict_set st.omr_response b.field_label s.empty_val
                       , multi_marked_count := st.multi_marked_count
                       , unmarked_count := st.unmarked_count + 1 } := by
        injection hp with h
        exact h.symm
      subst hst
      constructor
      · simp only
        have : 1 ≤ max 1 (s.bubbles.length - 1) := le_max_left _ _
        omega
      · simp only
        refine (dict_set_keys st.omr_response b.field_label s.empty_val).trans ?_
        intro x hx
        rcases List.mem_append.mp hx with h | h
        · exact List.mem_append.mpr (Or.inl h)
        · simp only [List.mem_singleton] at h
          subst h
          refine List.mem_append.mpr (Or.inr ?_)
          simp
  | cons b rest =>
    subst hd
    simp only [List.isEmpty_cons, if_false, Bool.false_eq_true] at hp
    have hst : st' = (b :: rest).foldl respond_bubble st := by
      injection hp with h
      exact h.symm
    subst hst
    have hbmem : b.field_label ∈ s.bubbles.map (·.field_label) :=
      List.mem_map.mpr ⟨b, hsub.subset (by simp), rfl⟩
    obtain ⟨h1, h2⟩ := foldl_respond_fresh b rest st (hfresh _ hbmem)
    obtain ⟨_, _, h3⟩ := foldl_respond_basic (b :: rest) st
    constructor
    · have hlen : rest.length + 1 ≤ s.bubbles.length := by
        simpa using hsub.length_le
      have : rest.length ≤ max 1 (s.bubbles.length - 1) := by
        have := le_max_right 1 (s.bubbles.length - 1)
        omega
      omega
    · refine h3.trans ?_
      intro x hx
      rcases List.mem_append.mp hx with h | h
      · exact List.mem_append.mpr (Or.inl h)
      · refine List.mem_append.mpr (Or.inr ?_)
        have hmapsub : ((b :: rest).map (·.field_label)) ⊆
            s.bubbles.map (·.field_label) := (hsub.map _).subset
        exact hmapsub h

theorem process_strip_bound (g : ℚ) (st : DetectState) (s : StripInput)
    (st' : DetectState) (hp : process_strip g st s = some st')
    (hfresh : ∀ lab ∈ s.bubbles.map (·.field_label),
      lab ∉ st.omr_response.map Prod.fst) :
    st'.multi_marked_count + st'.unmarked_count ≤
      st.multi_marked_count + st.unmarked_count + max 1 (s.bubbles.length - 1) ∧
    st'.omr_response.map Prod.fst ⊆
      st.omr_response.map Prod.fst ++ s.bubbles.map (·.field_label) := by
  unfold process_strip at hp
  cases hthr : get_local_threshold s.q_vals g with
  | none => rw [hthr] at hp; exact absurd hp (by simp)
  | some thr =>
  rw [hthr, Option.some_bind] at hp
  cases hsel : select_marked_indices s.q_vals thr with
  | none => rw [hsel] at hp; exact absurd hp (by simp)
  | some marked0 =>
  rw [hsel, Option.some_bind] at hp
  exact strip_respond_bound st s _ st' hp (strip_detected_sublist s _) hfresh

theorem foldlM_process_bound : ∀ (strips : List StripInput) (st0 st' : DetectState)
    (g : ℚ), List.foldlM (process_strip g) st0 strips = some st' →
    (strips.map (fun s => s.bubbles.map (·.field_label))).Pairwise
      (fun l1 l2 => ∀ a ∈ l1, a ∉ l2) →
    (∀ s ∈ strips, ∀ lab ∈ s.bubbles.map (·.field_label),
      lab ∉ st0.omr_response.map Prod.fst) →
    st'.multi_marked_count + st'.unmarked_count ≤
      st0.multi_marked_count + st0.unmarked_count +
        (strips.map (fun s => max 1 (s.bubbles.length - 1))).sum ∧
    st'.omr_response.map Prod.fst ⊆
      st0.omr_response.map Prod.fst ++
        (strips.map (fun s => s.bubbles.map (·.field_label))).flatten := by
  intro strips
  induction strips with
  | nil =>
    intro st0 st' g hp _ _
    simp only [List.foldlM_nil] at hp
    injection hp with hp
    subst hp
    simp
  | cons s ss ih =>
    intro st0 st' g hp hpw hfresh
    rw [List.foldlM_cons] at hp
    cases hps : process_strip g st0 s with
    | none => rw [hps] at hp; exact absurd hp (by simp)
    | some st1 =>
    rw [hps] at hp
    replace hp : List.foldlM (process_strip g) st1 ss = some st' := hp
    obtain ⟨hb1, hk1⟩ := process_strip_bound g st0 s st1 hps (hfresh s (by simp))
    rw [List.map_cons, List.pairwise_cons] at hpw
    have hfresh2 : ∀ s2 ∈ ss, ∀ lab ∈ s2.bubbles.map (·.field_label),
        lab ∉ st1.omr_response.map Prod.fst := by
      intro s2 hs2 lab hlab hmem
      rcases List.mem_append.mp (hk1 hmem) with h | h
      · exact hfresh s2 (by simp [hs2]) lab hlab h
      · exact hpw.1 (s2.bubbles.map (·.field_label))
          (List.mem_map.mpr ⟨s2, hs2, rfl⟩) lab h hlab
    obtain ⟨hb2, hk2⟩ := ih st1 st' g hp hpw.2 hfresh2
    constructor
    · simp only [List.map_cons, List.sum_cons]
      omega
    · refine hk2.trans ?_
      intro x hx
      rcases List.mem_append.mp hx with h | h
      · rcases List.mem_append.mp (hk1 h) with h2 | h2
        · exact List.mem_append.mpr (Or.inl h2)
        · refine List.mem_append.mpr (Or.inr ?_)
          simp only [List.map_cons, List.flatten_cons, List.mem_append]
          exact Or.inl h2
      · refine List.mem_append.mpr (Or.inr ?_)
        simp only [List.map_cons, List.flatten_cons, List.mem_append]
        exact Or.inr h

/-- **C2** (corrected, amended).  When detection completes without raising
and no two strips share a question label (every strip's bubbles carry its
own label), each strip contributes at most 1 to `unmarked_count` or at
most (its detected-bubble count − 1) to `multi_marked_count`, so
`multi_marked_count + unmarked_count ≤ Σ_strips max 1 (choices − 1)`. -/
theorem claim_C2_counts_bound :
    ∀ (strips : List StripInput) (st : DetectState),
    detect_bubbles_pure strips = some st →
    (strips.map (fun s => s.bubbles.map (·.field_label))).Pairwise
      (fun l1 l2 => ∀ a ∈ l1, a ∉ l2) →
    st.multi_marked_count + st.unmarked_count ≤
      (strips.map (fun s => max 1 (s.bubbles.length - 1))).sum := by
  intro strips st hdet hpw
  unfold detect_bubbles_pure at hdet
  by_cases hq : ((strips.map (·.q_vals)).flatten).isEmpty
  · rw [if_pos hq] at hdet
    injection hdet with hdet
    subst hdet
    simp
  · rw [if_neg hq] at hdet
    have h := foldlM_process_bound strips ⟨[], 0, 0⟩ st _ hdet hpw (by simp)
    simpa using h.1

/-- **C2** (counterexample).  One strip of five bubbles with means
(10, 12, 14, 100, 100) and no fill signal: three near-darkest bubbles are
kept, the response concatenates "ABC" and `multi_marked_count` is
incremented twice — so `multi_marked_count + unmarked_count = 2` exceeds
the single output column. -/
theorem claim_C2_counterexample :
    detect_bubbles_pure
      [{ bubbles := [{ x := 0, y := 0, field_label := "q1", field_value := "A" },
                     { x := 1, y := 0, field_label := "q1", field_value := "B" },
                     { x := 2, y := 0, field_label := "q1", field_value := "C" },
                     { x := 3, y := 0, field_label := "q1", field_value := "D" },
                     { x := 4, y := 0, field_label := "q1", field_value := "E" }]
         , q_vals := [10, 12, 14, 100, 100], fill_vals := [0, 0, 0, 0, 0]
         , empty_val := "" }] =
      some { omr_response := [("q1", "ABC")], multi_marked_count := 2
           , unmarked_count := 0 } ∧
    ¬ (2 + 0 ≤ [("q1", "ABC")].length) := by
  constructor
  · norm_num [detect_bubbles_pure, process_strip, strip_detected, strip_respond,
      get_local_threshold, get_global_threshold, select_marked_indices, py_sorted,
      insert_stable, py_range, py_range_from, Int.toNat, gap_step, apply_fill_override,
      respond_bubble, contains_key, dict_append_value, dict_set,
      GLOBAL_PAGE_THRESHOLD_WHITE, MIN_JUMP, MIN_GAP, CONFIDENT_SURPLUS,
      SINGLE_MARK_GAP, MULTI_MARK_NEAR_GAP, List.range_succ, List.enum, List.enumFrom,
      List.filter, List.contains, List.elem, List.isEmpty, Option.some_bind,
      Option.none_bind, decide_eq_true_eq]
    rfl
  · simp

/-- Witness for `claim_C2_counts_bound` at the three-marked strip: its
counts 2 + 0 stay below the amended bound max 1 (5 − 1) = 4. -/
theorem claim_C2_counts_bound_witness :
    ({ omr_response := [("q1", "ABC")], multi_marked_count := 2
       , unmarked_count := 0 } : DetectState).multi_marked_count +
      ({ omr_response := [("q1", "ABC")], multi_marked_count := 2
         , unmarked_count := 0 } : DetectState).unmarked_count ≤
      (([{ bubbles := [{ x := 0, y := 0, field_label := "q1", field_value := "A" },
                       { x := 1, y := 0, field_label := "q1", field_value := "B" },
                       { x := 2, y := 0, field_label := "q1", field_value := "C" },
                       { x := 3, y := 0, field_label := "q1", field_value := "D" },
                       { x := 4, y := 0, field_label := "q1", field_value := "E" }]
           , q_vals := [10, 12, 14, 100, 100], fill_vals := [0, 0, 0, 0, 0]
           , empty_val := "" }] : List StripInput).map
        (fun s => max 1 (s.bubbles.length - 1))).sum :=
  claim_C2_counts_bound _ _
    (by
      norm_num [detect_bubbles_pure, process_strip, strip_detected, strip_respond,
        get_local_threshold, get_global_threshold, select_marked_indices, py_sorted,
        insert_stable, py_range, py_range_from, Int.toNat, gap_step, apply_fill_override,
        respond_bubble, contains_key, dict_append_value, dict_set,
        GLOBAL_PAGE_THRESHOLD_WHITE, MIN_JUMP, MIN_GAP, CONFIDENT_SURPLUS,
        SINGLE_MARK_GAP, MULTI_MARK_NEAR_GAP, List.range_succ, List.enum, List.enumFrom,
        List.filter, List.contains, List.elem, List.isEmpty, Option.some_bind,
        Option.none_bind, decide_eq_true_eq]
      rfl)
    (by simp)

theorem py_range_cons {a b : ℤ} (h : a < b) :
    py_range a b = a :: py_range (a + 1) b := by
  unfold py_range
  have hm : (b - a).toNat = (b - (a + 1)).toNat + 1 := by omega
  rw [hm]
  rfl

theorem getD_mono_of_steps (v : List ℚ)
    (h : ∀ i, i + 1 < v.length → v.getD i 0 ≤ v.getD (i + 1) 0) :
    ∀ d i, i + d < v.length → v.getD i 0 ≤ v.getD (i + d) 0 := by
  intro d
  induction d with
  | zero => intro i _; simp
  | succ m ih =>
    intro i hi
    have h1 : v.getD i 0 ≤ v.getD (i + m) 0 := ih i (by omega)
    have h2 : v.getD (i + m) 0 ≤ v.getD (i + m + 1) 0 := h (i + m) (by omega)
    have : i + (m + 1) = i + m + 1 := by omega
    rw [this]
    exact h1.trans h2

theorem pairwise_le_of_steps (v : List ℚ)
    (h : ∀ i, i + 1 < v.length → v.getD i 0 ≤ v.getD (i + 1) 0) :
    v.Pairwise (fun a b => decide (a ≤ b) = true) := by
  rw [List.pairwise_iff_getElem]
  intro i j hi hj hij
  have hm := getD_mono_of_steps v h (j - i) i (by omega)
  rw [show i + (j - i) = j by omega] at hm
  rw [List.getD_eq_getElem?_getD, List.getElem?_eq_getElem hi] at hm
  rw [List.getD_eq_getElem?_getD, List.getElem?_eq_getElem hj] at hm
  simpa using hm

theorem flat_left_of (v : List ℚ) (k : ℕ) (hk : k + 1 < v.length)
    (hflat : ∀ i, i + 1 < v.length → i ≠ k → v.getD (i + 1) 0 = v.getD i 0) :
    ∀ j, j ≤ k → v.getD j 0 = v.getD k 0 := by
  suffices hs : ∀ d, v.getD (k - d) 0 = v.getD k 0 by
    intro j hj
    have := hs (k - j)
    rwa [Nat.sub_sub_self hj] at this
  intro d
  induction d with
  | zero => simp
  | succ m ih =>
    by_cases hdk : m < k
    · have hne : k - (m + 1) ≠ k := by omega
      have hstep := hflat (k - (m + 1)) (by omega) hne
      rw [show k - (m + 1) + 1 = k - m by omega] at hstep
      rw [← ih, ← hstep]
    · rw [show k - (m + 1) = k - m by omega, ih]

theorem flat_right_of (v : List ℚ) (k : ℕ)
    (hflat : ∀ i, i + 1 < v.length → i ≠ k → v.getD (i + 1) 0 = v.getD i 0) :
    ∀ i, k + 1 ≤ i → i < v.length → v.getD i 0 = v.getD (k + 1) 0 := by
  suffices hs : ∀ d, k + 1 + d < v.length → v.getD (k + 1 + d) 0 = v.getD (k + 1) 0 by
    intro i h1 h2
    have := hs (i - (k + 1)) (by omega)
    rwa [show k + 1 + (i - (k + 1)) = i by omega] at this
  intro d
  induction d with
  | zero => intro _; rfl
  | succ m ih =>
    intro hlen
    have hstep := hflat (k + 1 + m) (by omega) (by omega)
    rw [show k + 1 + (m + 1) = k + 1 + m + 1 by omega, hstep]
    exact ih (by omega)

theorem gap_fold_eval (v : List ℚ) (k : ℕ) (gd : ℚ)
    (hlen : 3 ≤ v.length) (hk : k + 1 < v.length)
    (hgap : MIN_JUMP < v.getD (k + 1) 0 - v.getD k 0)
    (hflat : ∀ i, i + 1 < v.length → i ≠ k → v.getD (i + 1) 0 = v.getD i 0) :
    (py_range 1 ((v.length : ℤ) - 1)).foldl (gap_step v 1) (MIN_JUMP, gd) =
      (v.getD (k + 1) 0 - v.getD k 0,
       v.getD k 0 + (v.getD (k + 1) 0 - v.getD k 0) / 2) := by
  have hAB : v.getD k 0 ≤ v.getD (k + 1) 0 := by
    have h25 : (0 : ℚ) < MIN_JUMP := by norm_num [MIN_JUMP]
    linarith
  set i0 : ℤ := max (k : ℤ) 1 with hi0
  have hi0ge : 1 ≤ i0 := le_max_right _ _
  have hi0lt : i0 < (v.length : ℤ) - 1 := by omega
  have hvtop : v.getD (i0 + 1).toNat 0 = v.getD (k + 1) 0 := by
    rcases Nat.eq_zero_or_pos k with hk0 | hkpos
    · subst hk0
      have h1 : i0 = 1 := by omega
      rw [h1, show ((1 : ℤ) + 1).toNat = 2 by omega]
      exact flat_right_of v 0 hflat 2 (by omega) (by omega)
    · have h1 : i0 = (k : ℤ) := by omega
      rw [h1, show ((k : ℤ) + 1).toNat = k + 1 by omega]
  have hvbot : v.getD (i0 - 1).toNat 0 = v.getD k 0 := by
    rcases Nat.eq_zero_or_pos k with hk0 | hkpos
    · subst hk0
      have h1 : i0 = 1 := by omega
      rw [h1, show ((1 : ℤ) - 1).toNat = 0 by omega]
    · have h1 : i0 = (k : ℤ) := by omega
      rw [h1, show ((k : ℤ) - 1).toNat = k - 1 by omega]
      exact flat_left_of v k hk hflat (k - 1) (by omega)
  have hpre : ∀ i ∈ py_range 1 i0,
      v.getD (i + 1).toNat 0 - v.getD (i - 1).toNat 0 ≤ MIN_JUMP := by
    intro i hi
    obtain ⟨h1, h2⟩ := mem_py_range.mp hi
    rw [show (i + 1).toNat = i.toNat + 1 by omega,
        show (i - 1).toNat = i.toNat - 1 by omega]
    have e1 : v.getD (i.toNat + 1) 0 = v.getD k 0 :=
      flat_left_of v k hk hflat _ (by omega)
    have e2 : v.getD (i.toNat - 1) 0 = v.getD k 0 :=
      flat_left_of v k hk hflat _ (by omega)
    rw [e1, e2]
    norm_num [MIN_JUMP]
  have hstep : gap_step v 1 (MIN_JUMP, gd) i0 =
      (v.getD (k + 1) 0 - v.getD k 0,
       v.getD k 0 + (v.getD (k + 1) 0 - v.getD k 0) / 2) := by
    simp only [gap_step, hvtop, hvbot]
    rw [if_pos hgap]
  have hpost : ∀ i ∈ py_range (i0 + 1) ((v.length : ℤ) - 1),
      v.getD (i + 1).toNat 0 - v.getD (i - 1).toNat 0 ≤
        v.getD (k + 1) 0 - v.getD k 0 := by
    intro i hi
    obtain ⟨h1, h2⟩ := mem_py_range.mp hi
    rw [show (i + 1).toNat = i.toNat + 1 by omega,
        show (i - 1).toNat = i.toNat - 1 by omega]
    have e1 : v.getD (i.toNat + 1) 0 = v.getD (k + 1) 0 :=
      flat_right_of v k hflat _ (by omega) (by omega)
    rw [e1]
    by_cases hcase : i.toNat - 1 = k
    · rw [hcase]
    · have e2 : v.getD (i.toNat - 1) 0 = v.getD (k + 1) 0 :=
        flat_right_of v k hflat _ (by omega) (by omega)
      rw [e2]
      simp only [sub_self]
      linarith
  have hsplit : py_range 1 ((v.length : ℤ) - 1) =
      py_range 1 i0 ++ i0 :: py_range (i0 + 1) ((v.length : ℤ) - 1) := by
    rw [py_range_append 1 i0 ((v.length : ℤ) - 1) hi0ge (by omega),
        py_range_cons hi0lt]
  rw [hsplit, List.foldl_append,
      foldl_gap_step_no_update v 1 (py_range 1 i0) (MIN_JUMP, gd) hpre,
      List.foldl_cons, hstep,
      foldl_gap_step_no_update v 1 (py_range (i0 + 1) ((v.length : ℤ) - 1)) _ hpost]

/-- **C4** (corrected, amended).  With the default `looseness = 1` the
scan's windowed jump `values[i+1] - values[i-1]` spans two consecutive
gaps, so the returned threshold is the midpoint of the maximal window,
not of the unique large gap in general.  When the one gap strictly
exceeding `MIN_JUMP` at index `k` is isolated (every other consecutive
gap is zero), the function does return that gap's midpoint
`(values[k] + values[k+1]) / 2`; and whenever no windowed jump strictly
exceeds `MIN_JUMP` it returns the page-type default (200 white,
100 black). -/
theorem claim_C4_first_large_gap :
    (∀ (v : List ℚ) (k : ℕ) (page_type : String),
      3 ≤ v.length → k + 1 < v.length →
      MIN_JUMP < v.getD (k + 1) 0 - v.getD k 0 →
      (∀ i, i + 1 < v.length → i ≠ k → v.getD (i + 1) 0 = v.getD i 0) →
      (get_global_threshold v 1 page_type).1 =
        (v.getD k 0 + v.getD (k + 1) 0) / 2) ∧
    (∀ (v : List ℚ) (looseness : ℕ) (page_type : String),
      (∀ i ∈ py_range (((looseness + 1) / 2 : ℕ) : ℤ)
          (((py_sorted (fun a b => decide (a ≤ b)) v).length : ℤ) -
            (((looseness + 1) / 2 : ℕ) : ℤ)),
        (py_sorted (fun a b => decide (a ≤ b)) v).getD
            (i + (((looseness + 1) / 2 : ℕ) : ℤ)).toNat 0 -
          (py_sorted (fun a b => decide (a ≤ b)) v).getD
            (i - (((looseness + 1) / 2 : ℕ) : ℤ)).toNat 0 ≤ MIN_JUMP) →
      (get_global_threshold v looseness page_type).1 =
        (if page_type == "white" then GLOBAL_PAGE_THRESHOLD_WHITE
         else GLOBAL_PAGE_THRESHOLD_BLACK)) := by
  constructor
  · intro v k page_type hlen hk hgap hflat
    have hAB : v.getD k 0 ≤ v.getD (k + 1) 0 := by
      have h25 : (0 : ℚ) < MIN_JUMP := by norm_num [MIN_JUMP]
      linarith
    have hsteps : ∀ i, i + 1 < v.length → v.getD i 0 ≤ v.getD (i + 1) 0 := by
      intro i hi
      by_cases hik : i = k
      · subst hik; exact hAB
      · rw [hflat i hi hik]
    have hsorted : py_sorted (fun a b => decide (a ≤ b)) v = v :=
      py_sorted_of_pairwise _ v (pairwise_le_of_steps v hsteps)
    have hn0 : ¬ v.length = 0 := by omega
    simp only [get_global_threshold, hsorted]
    rw [if_neg hn0, show (((1 + 1) / 2 : ℕ) : ℤ) = 1 by norm_num,
        gap_fold_eval v k _ hlen hk hgap hflat]
    show v.getD k 0 + (v.getD (k + 1) 0 - v.getD k 0) / 2 = _
    ring
  · intro v looseness page_type hno
    simp only [get_global_threshold]
    by_cases h0 : (py_sorted (fun a b => decide (a ≤ b)) v).length = 0
    · rw [if_pos h0]
    · rw [if_neg h0, foldl_gap_step_no_update _ _ _ _ hno]

/-- **C4** (counterexample).  The sorted list (0, 24, 48, 73, 73, 73) has
exactly one consecutive gap ≥ MIN_JUMP = 25 (between 48 and 73, index 2),
yet the first-large-gap function returns 48.5 — the midpoint of the
maximal two-apart window (24, 73) — not the gap midpoint 60.5. -/
theorem claim_C4_counterexample :
    ([0, 24, 48, 73, 73, 73] : List ℚ).getD 1 0 - ([0, 24, 48, 73, 73, 73] : List ℚ).getD 0 0 < 25 ∧
    ([0, 24, 48, 73, 73, 73] : List ℚ).getD 2 0 - ([0, 24, 48, 73, 73, 73] : List ℚ).getD 1 0 < 25 ∧
    25 ≤ ([0, 24, 48, 73, 73, 73] : List ℚ).getD 3 0 - ([0, 24, 48, 73, 73, 73] : List ℚ).getD 2 0 ∧
    ([0, 24, 48, 73, 73, 73] : List ℚ).getD 4 0 - ([0, 24, 48, 73, 73, 73] : List ℚ).getD 3 0 < 25 ∧
    ([0, 24, 48, 73, 73, 73] : List ℚ).getD 5 0 - ([0, 24, 48, 73, 73, 73] : List ℚ).getD 4 0 < 25 ∧
    (get_global_threshold [0, 24, 48, 73, 73, 73] 1 "white").1 = 97 / 2 ∧
    (97 / 2 : ℚ) ≠
      (([0, 24, 48, 73, 73, 73] : List ℚ).getD 2 0 +
        ([0, 24, 48, 73, 73, 73] : List ℚ).getD 3 0) / 2 := by
  refine ⟨by norm_num, by norm_num, by norm_num, by norm_num, by norm_num, ?_, by norm_num⟩
  norm_num [get_global_threshold, py_sorted, insert_stable, py_range, py_range_from,
    Int.toNat, gap_step, GLOBAL_PAGE_THRESHOLD_WHITE, MIN_JUMP]

/-- Witness for `claim_C4_first_large_gap`: the isolated gap of
(0, 0, 30, 30) at index 1 yields its midpoint 15, and a singleton list
(no windows at all) yields the white default 200. -/
theorem claim_C4_first_large_gap_witness :
    (get_global_threshold [0, 0, 30, 30] 1 "white").1 = (0 + 30) / 2 ∧
    (get_global_threshold [7] 4 "white").1 = 200 := by
  constructor
  · have h := claim_C4_first_large_gap.1 [0, 0, 30, 30] 1 "white"
      (by norm_num) (by norm_num) (by norm_num [MIN_JUMP]) ?_
    · simpa using h
    · intro i h1 h2
      have h3 : i < 3 := by simp only [List.length_cons, List.length_nil] at h1; omega
      interval_cases i
      · norm_num
      · exact absurd rfl h2
      · norm_num
  · have h := claim_C4_first_large_gap.2 [7] 4 "white" ?_
    · simpa [GLOBAL_PAGE_THRESHOLD_WHITE] using h
    · intro i hi
      exact absurd hi (by norm_num [py_sorted, insert_stable, py_range, py_range_from])

end OmrScanner
